import Mathlib

/-!
Verification of the chatterbox desktop GUI repository (two Python source
files, `main.py` and `chatterbox_bulk_pyqt6.py`).

The worker classes (`TTSWorker`, `VCWorker`, `BulkTTSWorker`, `BulkVCWorker`)
and the `AudioRecorder` are shallowly embedded here.  Each worker `run`
method is modelled as a pure function producing the *trace* of its
observable actions, in source order: Qt signal emissions (`progress`,
`file_completed`, `error`, `finished`), calls into the random-number
seeding routines, and calls into the external model / file-save routines.
The external model and `torchaudio.save` are opaque collaborators; their
outcomes (return normally, or raise with a message) are supplied by an
oracle, one outcome per item index.
-/

namespace Chatterbox

/-! ### Path helpers (`os.path.join`, `pathlib.Path.name` / `.stem`) -/

/-- Splitting a character list at every `/`, like Python's `split('/')`
(adjacent separators yield empty components). -/
def splitOnSlash : List Char → List (List Char)
  | [] => [[]]
  | c :: rest =>
    let r := splitOnSlash rest
    if c = '/' then [] :: r
    else
      match r with
      | [] => [[c]]
      | g :: gs => (c :: g) :: gs

/-- Whether a string's final character is the path separator. -/
def endsWithSlash (s : String) : Bool :=
  s.data.getLast? = some '/'

/-- Python `os.path.join dir file` for a relative `file`: joins with `/`, adding no
separator when `dir` already ends with one, and returning `file` alone when
`dir` is empty. -/
def osPathJoin (dir file : String) : String :=
  if dir = "" then file
  else if endsWithSlash dir then dir ++ file
  else dir ++ "/" ++ file

/-- Python `pathlib.Path(p).name`: the final path component (trailing and repeated
separators ignored). -/
def pathName (p : String) : String :=
  String.mk (((splitOnSlash p.data).filter (fun s => s ≠ [])).getLastD [])

/-- Python `pathlib.Path(p).stem`: the final component without its extension.  An
extension is a suffix starting at the last `.` of the name, provided that
dot is neither the first nor the last character of the name (so `.bashrc`
and `name.` have no extension), matching CPython's `pathlib`. -/
def pathStem (p : String) : String :=
  let name := pathName p
  let cs := name.data
  match cs.reverse.findIdx? (fun c => c = '.') with
  | none => name
  | some rj =>
    let i := cs.length - 1 - rj
    if 0 < i ∧ i < cs.length - 1 then String.mk (cs.take i) else name

/-- Python `f"{n:03d}"` for a natural number: decimal digits, left-padded
with zeros to at least three characters. -/
def pad3 (n : Nat) : String :=
  let s := toString n
  if s.length < 3 then String.mk (List.replicate (3 - s.length) '0') ++ s else s

/-! ### Random-number-generator seeding

`set_seed` in both source files seeds five generators with the same value:
`torch.manual_seed`, `torch.cuda.manual_seed`, `torch.cuda.manual_seed_all`,
`random.seed`, `np.random.seed`. -/

inductive SeedTarget where
  | torchManualSeed
  | torchCudaManualSeed
  | torchCudaManualSeedAll
  | pythonRandomSeed
  | numpyRandomSeed
deriving DecidableEq, Repr

def seedTargets : List SeedTarget :=
  [SeedTarget.torchManualSeed, SeedTarget.torchCudaManualSeed,
   SeedTarget.torchCudaManualSeedAll, SeedTarget.pythonRandomSeed,
   SeedTarget.numpyRandomSeed]

/-! ### Bulk workers (`chatterbox_bulk_pyqt6.py`) -/

/-- One observable action of a bulk worker's `run` method, in source order:
signal emissions, seeding calls, and calls into the model / save routines
(`callGenerate i` / `callSave i path` are the blocking external calls made
while processing the item at 0-based index `i`). -/
inductive Action where
  | emitProgress (current total : Nat) (message : String)
  | seedCall (target : SeedTarget) (value : Nat)
  | callGenerate (idx : Nat)
  | callSave (idx : Nat) (path : String)
  | emitFileCompleted (item : String) (outputPath : String)
  | emitError (item : String) (errorMessage : String)
  | emitFinished
deriving DecidableEq, Repr

/-- The five seeding calls performed by `set_seed(seed)`, in source order. -/
def set_seed (seed : Nat) : List Action :=
  [Action.seedCall SeedTarget.torchManualSeed seed,
   Action.seedCall SeedTarget.torchCudaManualSeed seed,
   Action.seedCall SeedTarget.torchCudaManualSeedAll seed,
   Action.seedCall SeedTarget.pythonRandomSeed seed,
   Action.seedCall SeedTarget.numpyRandomSeed seed]

/-- Outcomes of the external calls made while processing item `idx`:
`generate idx` is the model invocation (`self.model.generate(...)`),
`save idx` is `torchaudio.save(...)`.  `Except.error e` models the call
raising an exception whose `str` is `e`. -/
structure GenOracle where
  generate : Nat → Except String Unit
  save : Nat → Except String Unit

/-- The oracle under which every external call returns normally. -/
def oAllOk : GenOracle :=
  { generate := fun _ => Except.ok (), save := fun _ => Except.ok () }

/-- Generation parameters assembled by `CompactParamWidget.get_params`,
plus the shared reference-audio path added by the control layer. -/
structure TTSParams where
  exaggeration : Rat
  cfg_weight : Rat
  temperature : Rat
  seed : Nat
  ref_audio : Option String

/-- Constructor arguments of `BulkTTSWorker` (the model handle itself is
the opaque collaborator represented by the oracle). -/
structure BulkTTSWorker where
  texts : List String
  output_dir : String
  base_filename : String
  params : TTSParams

/-- Constructor arguments of `BulkVCWorker`. -/
structure BulkVCWorker where
  input_files : List String
  output_dir : String
  target_voice_path : Option String

/-- The numbered output filename chosen by `BulkTTSWorker.run`:
`{base}.wav` when the batch has exactly one item, else
`{base}_{idx+1:03d}.wav`. -/
def ttsFilename (base : String) (total idx : Nat) : String :=
  if total = 1 then base ++ ".wav" else base ++ "_" ++ pad3 (idx + 1) ++ ".wav"

/-- The tail of one `BulkTTSWorker` loop iteration, from the model call's
outcome onward: on success, compute the output path, save, and emit
`file_completed`; on an exception anywhere in the `try` block, the
`except` clause emits `error(text, str(e))`. -/
def ttsItemTail (w : BulkTTSWorker) (o : GenOracle) (total idx : Nat) (text : String) :
    List Action :=
  match o.generate idx with
  | Except.error e => [Action.emitError text e]
  | Except.ok _ =>
    let outputPath := osPathJoin w.output_dir (ttsFilename w.base_filename total idx)
    Action.callSave idx outputPath ::
    match o.save idx with
    | Except.error e => [Action.emitError text e]
    | Except.ok _ => [Action.emitFileCompleted text outputPath]

/-- One full iteration of the `BulkTTSWorker.run` loop body for item `idx`:
emit progress, seed the generators with `seed + idx` when `seed != 0`,
invoke the model, then `ttsItemTail`. -/
def BulkTTSWorker.processItem (w : BulkTTSWorker) (o : GenOracle) (total idx : Nat)
    (text : String) : List Action :=
  Action.emitProgress (idx + 1) total ("Processing: " ++ text.take 50 ++ "...") ::
  ((if w.params.seed ≠ 0 then set_seed (w.params.seed + idx) else []) ++
   (Action.callGenerate idx :: ttsItemTail w o total idx text))

/-- The shared `for idx, x in enumerate(items)` loop of both bulk
workers: at the top of each iteration the `_is_running` flag is read
(`running idx` is the value observed there); if it is false the loop
breaks, otherwise the item is processed and iteration continues. -/
def workerLoop (running : Nat → Bool) (item : Nat → String → List Action) :
    Nat → List String → List Action
  | _, [] => []
  | idx, x :: rest =>
    if running idx then item idx x ++ workerLoop running item (idx + 1) rest
    else []

/-- Trace of `BulkTTSWorker.run`: the loop over `self.texts` followed by the
single `finished` emission (reached whether the loop was exhausted or
broken out of by a stop request). -/
def BulkTTSWorker.run (w : BulkTTSWorker) (o : GenOracle) (running : Nat → Bool) :
    List Action :=
  workerLoop running (w.processItem o w.texts.length) 0 w.texts ++ [Action.emitFinished]

/-- Output path chosen by `BulkVCWorker.run` for one input file:
`{Path(input).stem}_converted.wav` inside the output directory. -/
def vcOutputPath (dir input : String) : String :=
  osPathJoin dir (pathStem input ++ "_converted.wav")

/-- One full iteration of the `BulkVCWorker.run` loop body for item `idx`. -/
def BulkVCWorker.processItem (w : BulkVCWorker) (o : GenOracle) (total idx : Nat)
    (inputPath : String) : List Action :=
  Action.emitProgress (idx + 1) total ("Converting: " ++ pathName inputPath) ::
  Action.callGenerate idx ::
  match o.generate idx with
  | Except.error e => [Action.emitError inputPath e]
  | Except.ok _ =>
    let outputPath := vcOutputPath w.output_dir inputPath
    Action.callSave idx outputPath ::
    match o.save idx with
    | Except.error e => [Action.emitError inputPath e]
    | Except.ok _ => [Action.emitFileCompleted inputPath outputPath]

/-- Trace of `BulkVCWorker.run`. -/
def BulkVCWorker.run (w : BulkVCWorker) (o : GenOracle) (running : Nat → Bool) :
    List Action :=
  workerLoop running (w.processItem o w.input_files.length) 0 w.input_files ++
    [Action.emitFinished]

/-! ### Trace observations -/

/-- The target generator and value of a seeding call, if the action is one. -/
def seedCallOf : Action → Option (SeedTarget × Nat)
  | Action.seedCall t v => some (t, v)
  | _ => none

/-- The seeding calls of a trace, with their target generator and value. -/
def seedCalls (tr : List Action) : List (SeedTarget × Nat) :=
  tr.filterMap seedCallOf

/-- The `(item index, output path)` pair of a save call, if the action is one. -/
def saveCallOf : Action → Option (Nat × String)
  | Action.callSave i p => some (i, p)
  | _ => none

/-- The `(item index, output path)` pairs of the save calls of a trace. -/
def savePathsIdx (tr : List Action) : List (Nat × String) :=
  tr.filterMap saveCallOf

/-- The work item carried by a terminal per-item event (`file_completed`
or `error`), if any. -/
def terminalItemOf : Action → Option String
  | Action.emitFileCompleted it _ => some it
  | Action.emitError it _ => some it
  | _ => none

/-- The work items of the terminal per-item events of a trace, in emission
order. -/
def terminalItems (tr : List Action) : List String :=
  tr.filterMap terminalItemOf

def isFinishedEvent : Action → Bool
  | Action.emitFinished => true
  | _ => false

/-- Number of `finished` emissions in a trace. -/
def finishedCount (tr : List Action) : Nat :=
  (tr.filter isFinishedEvent).length

def isProgressEvent : Action → Bool
  | Action.emitProgress _ _ _ => true
  | _ => false

/-- Number of `progress` emissions in a trace (one per item processed). -/
def progressCount (tr : List Action) : Nat :=
  (tr.filter isProgressEvent).length

/-! ### Single-item workers (`main.py`)

Their Qt signals differ from the bulk workers' (`progress` carries only a
message, `finished` carries the output path), so their actions form a
separate type. -/

/-- One observable action of a single-item worker's `run` method. -/
inductive SAction where
  | progressMsg (message : String)
  | seedCall (target : SeedTarget) (value : Nat)
  | generateCall
  | saveCall (path : String)
  | finishedEv (outputPath : String)
  | errorEv (errorMessage : String)
deriving DecidableEq, Repr

/-- The five seeding calls of `TTSWorker.set_seed`, in source order. -/
def TTSWorker.set_seed (seed : Nat) : List SAction :=
  [SAction.seedCall SeedTarget.torchManualSeed seed,
   SAction.seedCall SeedTarget.torchCudaManualSeed seed,
   SAction.seedCall SeedTarget.torchCudaManualSeedAll seed,
   SAction.seedCall SeedTarget.pythonRandomSeed seed,
   SAction.seedCall SeedTarget.numpyRandomSeed seed]

/-- Outcomes of the two external calls of a single-item worker run. -/
structure SingleOracle where
  generate : Except String Unit
  save : Except String Unit

/-- The single-run oracle under which both calls return normally. -/
def oOkS : SingleOracle := { generate := Except.ok (), save := Except.ok () }

/-- Constructor arguments of `TTSWorker` in `main.py`. -/
structure TTSWorker where
  text : String
  audio_prompt_path : Option String
  exaggeration : Rat
  temperature : Rat
  seed : Nat
  cfg_weight : Rat

/-- Trace of `TTSWorker.run`: the whole body is one `try` block; the
`except` clause emits `error(str(e))`.  On success the waveform is saved
to the fixed temporary path `temp_tts_output.wav` and `finished` is
emitted with that path. -/
def TTSWorker.run (w : TTSWorker) (o : SingleOracle) : List SAction :=
  SAction.progressMsg "Setting random seed..." ::
  ((if w.seed ≠ 0 then TTSWorker.set_seed w.seed else []) ++
   (SAction.progressMsg "Generating audio..." ::
    SAction.generateCall ::
    match o.generate with
    | Except.error e => [SAction.errorEv e]
    | Except.ok _ =>
      SAction.saveCall "temp_tts_output.wav" ::
      match o.save with
      | Except.error e => [SAction.errorEv e]
      | Except.ok _ => [SAction.finishedEv "temp_tts_output.wav"]))

/-- Constructor arguments of `VCWorker` in `main.py`. -/
structure VCWorker where
  audio_path : String
  target_voice_path : Option String

/-- Trace of `VCWorker.run` (fixed temporary path `temp_vc_output.wav`). -/
def VCWorker.run (w : VCWorker) (o : SingleOracle) : List SAction :=
  SAction.progressMsg "Processing voice conversion..." ::
  SAction.generateCall ::
  match o.generate with
  | Except.error e => [SAction.errorEv e]
  | Except.ok _ =>
    SAction.saveCall "temp_vc_output.wav" ::
    match o.save with
    | Except.error e => [SAction.errorEv e]
    | Except.ok _ => [SAction.finishedEv "temp_vc_output.wav"]

/-- Whether a single-worker action is a terminal event (`finished` or
`error`). -/
def sIsTerminal : SAction → Bool
  | SAction.finishedEv _ => true
  | SAction.errorEv _ => true
  | _ => false

/-- Number of terminal events in a single-worker trace. -/
def sTerminalCount (tr : List SAction) : Nat :=
  (tr.filter sIsTerminal).length

/-! ### Audio recorder (`AudioRecorder` in both files, identical code)

State of the recorder object plus bookkeeping of the input streams it has
opened.  A stream is identified by a counter value; `openStreams` lists
the streams opened by the recorder that were not yet closed; `stream` is
the object's `self.stream` attribute (`none` while the attribute is
unset).  An arriving audio block is an `audio_callback` invocation, which
enqueues the data exactly when `self.recording` is true. -/

structure AudioRecorder where
  recording : Bool
  frames : List (List Int)
  samplerate : Nat
  channels : Nat
  q : List (List Int)
  stream : Option Nat
  openStreams : List Nat
  nextStreamId : Nat
deriving DecidableEq, Repr

/-- State after `AudioRecorder.__init__`. -/
def AudioRecorder.init : AudioRecorder :=
  { recording := false, frames := [], samplerate := 44100, channels := 1,
    q := [], stream := none, openStreams := [], nextStreamId := 0 }

/-- Method `start_recording`: set the flag, reset the frame buffer, open and start
a fresh input stream, and overwrite `self.stream` with it.  The previously
referenced stream, if any, is not stopped or closed. -/
def AudioRecorder.start_recording (r : AudioRecorder) : AudioRecorder :=
  { r with recording := true, frames := [],
           stream := some r.nextStreamId,
           openStreams := r.openStreams ++ [r.nextStreamId],
           nextStreamId := r.nextStreamId + 1 }

/-- Method `audio_callback`: enqueue the incoming block while recording. -/
def AudioRecorder.audio_callback (r : AudioRecorder) (indata : List Int) : AudioRecorder :=
  if r.recording then { r with q := r.q ++ [indata] } else r

/-- Method `stop_recording`: clear the flag; if `self.stream` is set, stop and
close that stream; drain the queue into `frames`; return `np.vstack` of
the frames (their concatenation, in arrival order) or `None` when no
frame was captured. -/
def AudioRecorder.stop_recording (r : AudioRecorder) : AudioRecorder × Option (List Int) :=
  let r1 : AudioRecorder :=
    { r with recording := false,
             openStreams :=
               match r.stream with
               | some sid => r.openStreams.filter (fun x => x ≠ sid)
               | none => r.openStreams }
  let r2 : AudioRecorder := { r1 with frames := r1.frames ++ r1.q, q := [] }
  if r2.frames.isEmpty then (r2, none) else (r2, some r2.frames.flatten)

/-- Method `save_recording`: `stop_recording` then write the file when audio was
captured, reporting whether a file was written. -/
def AudioRecorder.save_recording (r : AudioRecorder) : AudioRecorder × Bool :=
  match r.stop_recording with
  | (r', some _) => (r', true)
  | (r', none) => (r', false)

/-! ### Generic lemmas about the bulk-worker loop -/

/-- When the stop flag is never observed, `filterMap` over the loop's trace
is the concatenation of the per-item contributions, indexed from `idx`. -/
lemma workerLoop_always_filterMap {β : Type} (g : Action → Option β)
    (item : Nat → String → List Action) (blk : Nat → String → List β)
    (hitem : ∀ idx x, (item idx x).filterMap g = blk idx x) :
    ∀ (l : List String) (idx : Nat),
      (workerLoop (fun _ => true) item idx l).filterMap g =
        (List.enumFrom idx l).flatMap (fun p => blk p.1 p.2) := by
  intro l
  induction l with
  | nil => intro idx; simp [workerLoop]
  | cons x rest ih =>
    intro idx
    simp [workerLoop, List.filterMap_append, hitem, ih, List.enumFrom]

/-- When the stop flag is never observed and every item block contributes
`c` matches, the loop contributes `c` matches per item. -/
lemma workerLoop_always_count (f : Action → Bool)
    (item : Nat → String → List Action) (c : Nat)
    (hitem : ∀ idx x, ((item idx x).filter f).length = c) :
    ∀ (l : List String) (idx : Nat),
      ((workerLoop (fun _ => true) item idx l).filter f).length = c * l.length := by
  intro l
  induction l with
  | nil => intro idx; simp [workerLoop]
  | cons x rest ih =>
    intro idx
    simp only [workerLoop, if_pos, List.filter_append, List.length_append,
      List.length_cons, hitem, ih]
    ring

/-- Every action of a no-stop loop trace comes from the block of some item
`j` of the list, located at offset `j - idx`. -/
lemma mem_workerLoop_always (item : Nat → String → List Action) :
    ∀ (l : List String) (idx : Nat) (a : Action),
      a ∈ workerLoop (fun _ => true) item idx l →
      ∃ j x, idx ≤ j ∧ j < idx + l.length ∧ l.get? (j - idx) = some x ∧ a ∈ item j x := by
  intro l
  induction l with
  | nil => intro idx a h; simp [workerLoop] at h
  | cons y rest ih =>
    intro idx a h
    simp only [workerLoop, if_pos] at h
    rcases List.mem_append.mp h with h1 | h2
    · exact ⟨idx, y, le_refl _, by simp only [List.length_cons]; omega, by simp, h1⟩
    · obtain ⟨j, x, hj1, hj2, hget, hmem⟩ := ih (idx + 1) a h2
      refine ⟨j, x, by omega, by simp only [List.length_cons]; omega, ?_, hmem⟩
      have hdiff : j - idx = (j - (idx + 1)) + 1 := by omega
      rw [hdiff]
      simpa using hget

/-- A no-stop loop trace splits around the block of any in-range item. -/
lemma workerLoop_always_decomp (item : Nat → String → List Action) :
    ∀ (l : List String) (idx k : Nat), idx ≤ k → k < idx + l.length →
      ∃ x pre post,
        workerLoop (fun _ => true) item idx l = pre ++ (item k x ++ post) ∧
        l.get? (k - idx) = some x := by
  intro l
  induction l with
  | nil =>
    intro idx k h1 h2
    simp only [List.length_nil] at h2
    omega
  | cons y rest ih =>
    intro idx k h1 h2
    rcases eq_or_lt_of_le h1 with rfl | hlt
    · refine ⟨y, [], workerLoop (fun _ => true) item (idx + 1) rest, ?_, ?_⟩
      · simp [workerLoop]
      · simp
    · obtain ⟨x, pre, post, heq, hget⟩ :=
        ih (idx + 1) k hlt (by simp only [List.length_cons] at h2; omega)
      refine ⟨x, item idx y ++ pre, post, ?_, ?_⟩
      · simp [workerLoop, heq, List.append_assoc]
      · have hdiff : k - idx = (k - (idx + 1)) + 1 := by omega
        rw [hdiff]
        simpa using hget

/-- A run whose stop flag is first observed false at iteration `k` is the
no-stop run of the first `k` items. -/
lemma workerLoop_stop_eq_take (item : Nat → String → List Action) (k : Nat) :
    ∀ (l : List String) (idx : Nat),
      workerLoop (fun i => decide (i < k)) item idx l =
        workerLoop (fun _ => true) item idx (l.take (k - idx)) := by
  intro l
  induction l with
  | nil => intro idx; simp [workerLoop]
  | cons y rest ih =>
    intro idx
    by_cases h : idx < k
    · have hk : k - idx = (k - (idx + 1)) + 1 := by omega
      rw [hk]
      simp [workerLoop, h, ih]
    · have hk : k - idx = 0 := by omega
      simp [workerLoop, h, hk]

/-- Taking `flatMap` of a singleton of the value over an enumeration recovers the
list. -/
lemma enumFrom_flatMap_pure {α : Type} :
    ∀ (l : List α) (n : Nat), (List.enumFrom n l).flatMap (fun p => [p.2]) = l := by
  intro l
  induction l with
  | nil => intro n; simp
  | cons x rest ih => intro n; simp [List.enumFrom, ih]

/-- Taking `flatMap` over the indices of an enumeration is `flatMap` over the
corresponding index range. -/
lemma enumFrom_flatMap_fst {α β : Type} (g : Nat → List β) :
    ∀ (l : List α) (n : Nat),
      (List.enumFrom n l).flatMap (fun p => g p.1) = (List.range' n l.length).flatMap g := by
  intro l
  induction l with
  | nil => intro n; simp
  | cons x rest ih => intro n; simp [List.enumFrom, List.range'_succ, ih]

/-! ### Per-item block lemmas -/

/-- Each TTS item block carries exactly one terminal per-item event, and it
carries that item. -/
lemma processTTSItem_terminal (w : BulkTTSWorker) (o : GenOracle)
    (total idx : Nat) (x : String) :
    (w.processItem o total idx x).filterMap terminalItemOf = [x] := by
  unfold BulkTTSWorker.processItem ttsItemTail
  rcases hg : o.generate idx with e | u
  · by_cases hz : w.params.seed ≠ 0 <;>
      simp [hg, hz, set_seed, terminalItemOf, List.filterMap_append]
  · rcases hs : o.save idx with e2 | u2 <;> by_cases hz : w.params.seed ≠ 0 <;>
      simp [hg, hs, hz, set_seed, terminalItemOf, List.filterMap_append]

/-- Each VC item block carries exactly one terminal per-item event, and it
carries that item. -/
lemma processVCItem_terminal (w : BulkVCWorker) (o : GenOracle)
    (total idx : Nat) (x : String) :
    (w.processItem o total idx x).filterMap terminalItemOf = [x] := by
  unfold BulkVCWorker.processItem
  rcases hg : o.generate idx with e | u
  · simp [hg, terminalItemOf]
  · rcases hs : o.save idx with e2 | u2 <;> simp [hg, hs, terminalItemOf]

/-- A TTS item block emits no `finished` event. -/
lemma processTTSItem_no_finished (w : BulkTTSWorker) (o : GenOracle)
    (total idx : Nat) (x : String) :
    ((w.processItem o total idx x).filter isFinishedEvent).length = 0 := by
  unfold BulkTTSWorker.processItem ttsItemTail
  rcases hg : o.generate idx with e | u
  · by_cases hz : w.params.seed ≠ 0 <;>
      simp [hg, hz, set_seed, isFinishedEvent, List.filter_append]
  · rcases hs : o.save idx with e2 | u2 <;> by_cases hz : w.params.seed ≠ 0 <;>
      simp [hg, hs, hz, set_seed, isFinishedEvent, List.filter_append]

/-- A VC item block emits no `finished` event. -/
lemma processVCItem_no_finished (w : BulkVCWorker) (o : GenOracle)
    (total idx : Nat) (x : String) :
    ((w.processItem o total idx x).filter isFinishedEvent).length = 0 := by
  unfold BulkVCWorker.processItem
  rcases hg : o.generate idx with e | u
  · simp [hg, isFinishedEvent]
  · rcases hs : o.save idx with e2 | u2 <;> simp [hg, hs, isFinishedEvent]

/-- A TTS item block emits exactly one `progress` event. -/
lemma processTTSItem_one_progress (w : BulkTTSWorker) (o : GenOracle)
    (total idx : Nat) (x : String) :
    ((w.processItem o total idx x).filter isProgressEvent).length = 1 := by
  unfold BulkTTSWorker.processItem ttsItemTail
  rcases hg : o.generate idx with e | u
  · by_cases hz : w.params.seed ≠ 0 <;>
      simp [hg, hz, set_seed, isProgressEvent, List.filter_append]
  · rcases hs : o.save idx with e2 | u2 <;> by_cases hz : w.params.seed ≠ 0 <;>
      simp [hg, hs, hz, set_seed, isProgressEvent, List.filter_append]

/-- The seeding calls of a TTS item block: all five targets with value
`seed + idx` when the base seed is non-zero, none otherwise. -/
lemma processTTSItem_seedCalls (w : BulkTTSWorker) (o : GenOracle)
    (total idx : Nat) (x : String) :
    (w.processItem o total idx x).filterMap seedCallOf =
      if w.params.seed ≠ 0 then
        seedTargets.map (fun t => (t, w.params.seed + idx))
      else [] := by
  unfold BulkTTSWorker.processItem ttsItemTail
  rcases hg : o.generate idx with e | u
  · by_cases hz : w.params.seed ≠ 0 <;>
      simp [hg, hz, set_seed, seedTargets, seedCallOf, List.filterMap_append]
  · rcases hs : o.save idx with e2 | u2 <;> by_cases hz : w.params.seed ≠ 0 <;>
      simp [hg, hs, hz, set_seed, seedTargets, seedCallOf, List.filterMap_append]

/-- The only model invocation of a TTS item block is for that item. -/
lemma callGenerate_mem_processTTSItem (w : BulkTTSWorker) (o : GenOracle)
    (total idx : Nat) (x : String) (i : Nat)
    (h : Action.callGenerate i ∈ w.processItem o total idx x) : i = idx := by
  unfold BulkTTSWorker.processItem ttsItemTail at h
  rcases hg : o.generate idx with e | u <;> rw [hg] at h
  · by_cases hz : w.params.seed ≠ 0 <;> simp [hz, set_seed] at h <;> exact h
  · rcases hs : o.save idx with e2 | u2 <;> rw [hs] at h <;>
      by_cases hz : w.params.seed ≠ 0 <;> simp [hz, set_seed] at h <;> exact h

/-- The only save call of a TTS item block is for that item, at the
numbered output path. -/
lemma callSave_mem_processTTSItem (w : BulkTTSWorker) (o : GenOracle)
    (total idx : Nat) (x : String) (i : Nat) (p : String)
    (h : Action.callSave i p ∈ w.processItem o total idx x) :
    i = idx ∧ p = osPathJoin w.output_dir (ttsFilename w.base_filename total idx) := by
  unfold BulkTTSWorker.processItem ttsItemTail at h
  rcases hg : o.generate idx with e | u <;> rw [hg] at h
  · by_cases hz : w.params.seed ≠ 0 <;> simp [hz, set_seed] at h
  · rcases hs : o.save idx with e2 | u2 <;> rw [hs] at h <;>
      by_cases hz : w.params.seed ≠ 0 <;> simp [hz, set_seed] at h <;> exact h

/-- The only save call of a VC item block is for that item, at the
`_converted` output path derived from the input's stem. -/
lemma callSave_mem_processVCItem (w : BulkVCWorker) (o : GenOracle)
    (total idx : Nat) (x : String) (i : Nat) (p : String)
    (h : Action.callSave i p ∈ w.processItem o total idx x) :
    i = idx ∧ p = vcOutputPath w.output_dir x := by
  unfold BulkVCWorker.processItem at h
  rcases hg : o.generate idx with e | u <;> rw [hg] at h
  · simp at h
  · rcases hs : o.save idx with e2 | u2 <;> rw [hs] at h <;> simp at h <;> exact h

/-- A save-call record in a trace comes from a `callSave` action. -/
lemma saveCallOf_eq_some {a : Action} {i : Nat} {p : String}
    (h : saveCallOf a = some (i, p)) : a = Action.callSave i p := by
  cases a <;> simp_all [saveCallOf]

/-! ### Claim theorems -/

/-- C1.  In a batch synthesis run with base seed `s`: when `s = 0` no
seeding call is made for any item; when `s ≠ 0`, the seeding calls of the
whole run are exactly, for each 0-based item index `i` in order, one call
per generator (torch global, CUDA, CUDA all-devices, Python `random`,
NumPy) with the value `s + i`, and for each item `i` those five calls
appear as a contiguous segment immediately before the model invocation for
item `i`. -/
theorem tts_seed_derivation (w : BulkTTSWorker) (o : GenOracle) :
    (w.params.seed = 0 → seedCalls (w.run o (fun _ => true)) = []) ∧
    (w.params.seed ≠ 0 →
      seedCalls (w.run o (fun _ => true)) =
        (List.range w.texts.length).flatMap
          (fun i => seedTargets.map (fun t => (t, w.params.seed + i))) ∧
      ∀ i, i < w.texts.length →
        ∃ pre post,
          w.run o (fun _ => true) =
            pre ++ (set_seed (w.params.seed + i) ++ (Action.callGenerate i :: post))) := by
  have hseed : seedCalls (w.run o (fun _ => true)) =
      (List.range' 0 w.texts.length).flatMap
        (fun i =>
          if w.params.seed ≠ 0 then seedTargets.map (fun t => (t, w.params.seed + i))
          else []) := by
    unfold BulkTTSWorker.run seedCalls
    rw [List.filterMap_append,
      workerLoop_always_filterMap seedCallOf _
        (fun i _ =>
          if w.params.seed ≠ 0 then seedTargets.map (fun t => (t, w.params.seed + i))
          else [])
        (processTTSItem_seedCalls w o w.texts.length) w.texts 0,
      enumFrom_flatMap_fst
        (fun i =>
          if w.params.seed ≠ 0 then seedTargets.map (fun t => (t, w.params.seed + i))
          else [])
        w.texts 0]
    simp [seedCallOf]
  constructor
  · intro h0
    rw [hseed]
    simp [h0]
  · intro hne
    constructor
    · rw [hseed, List.range_eq_range']
      simp [hne]
    · intro i hi
      obtain ⟨x, pre, post, heq, _⟩ :=
        workerLoop_always_decomp (w.processItem o w.texts.length) w.texts 0 i
          (Nat.zero_le _) (by omega)
      refine ⟨pre ++ [Action.emitProgress (i + 1) w.texts.length
                ("Processing: " ++ x.take 50 ++ "...")],
              ttsItemTail w o w.texts.length i x ++ (post ++ [Action.emitFinished]), ?_⟩
      unfold BulkTTSWorker.run
      rw [heq]
      simp [BulkTTSWorker.processItem, hne, List.append_assoc]

/-- C2.  In a full batch run (no stop requested) of either bulk worker,
every work item yields exactly one terminal per-item event (completed or
error) carrying that item, in order — so the number of terminal per-item
events equals the batch size however many items fail — and exactly one
`finished` event is emitted, as the last event of the run. -/
theorem bulk_terminal_event_conservation (tw : BulkTTSWorker) (ot : GenOracle)
    (vw : BulkVCWorker) (vo : GenOracle) :
    terminalItems (tw.run ot (fun _ => true)) = tw.texts ∧
    (terminalItems (tw.run ot (fun _ => true))).length = tw.texts.length ∧
    finishedCount (tw.run ot (fun _ => true)) = 1 ∧
    (tw.run ot (fun _ => true)).getLast? = some Action.emitFinished ∧
    terminalItems (vw.run vo (fun _ => true)) = vw.input_files ∧
    (terminalItems (vw.run vo (fun _ => true))).length = vw.input_files.length ∧
    finishedCount (vw.run vo (fun _ => true)) = 1 ∧
    (vw.run vo (fun _ => true)).getLast? = some Action.emitFinished := by
  have hT : terminalItems (tw.run ot (fun _ => true)) = tw.texts := by
    unfold BulkTTSWorker.run terminalItems
    rw [List.filterMap_append,
      workerLoop_always_filterMap terminalItemOf _ (fun _ x => [x])
        (processTTSItem_terminal tw ot tw.texts.length) tw.texts 0,
      enumFrom_flatMap_pure]
    simp [terminalItemOf]
  have hV : terminalItems (vw.run vo (fun _ => true)) = vw.input_files := by
    unfold BulkVCWorker.run terminalItems
    rw [List.filterMap_append,
      workerLoop_always_filterMap terminalItemOf _ (fun _ x => [x])
        (processVCItem_terminal vw vo vw.input_files.length) vw.input_files 0,
      enumFrom_flatMap_pure]
    simp [terminalItemOf]
  have hTf : finishedCount (tw.run ot (fun _ => true)) = 1 := by
    unfold BulkTTSWorker.run finishedCount
    rw [List.filter_append,
      List.length_append,
      workerLoop_always_count isFinishedEvent _ 0
        (processTTSItem_no_finished tw ot tw.texts.length) tw.texts 0]
    simp [isFinishedEvent]
  have hVf : finishedCount (vw.run vo (fun _ => true)) = 1 := by
    unfold BulkVCWorker.run finishedCount
    rw [List.filter_append,
      List.length_append,
      workerLoop_always_count isFinishedEvent _ 0
        (processVCItem_no_finished vw vo vw.input_files.length) vw.input_files 0]
    simp [isFinishedEvent]
  refine ⟨hT, by rw [hT], hTf, ?_, hV, by rw [hV], hVf, ?_⟩
  · unfold BulkTTSWorker.run
    exact List.getLast?_concat _
  · unfold BulkVCWorker.run
    exact List.getLast?_concat _

/-- C3.  In a batch synthesis run whose stop flag is first observed false
at the top of iteration `k` (a stop requested after `k` items): exactly
`min k n` items are processed — so at most `k` — no progress, completed,
or error event is emitted for any item beyond the first `k`, no model
invocation happens for an item index `≥ k`, and exactly one `finished`
event is still emitted, last. -/
theorem bulk_stop_truncation (w : BulkTTSWorker) (o : GenOracle) (k : Nat) :
    progressCount (w.run o (fun i => decide (i < k))) = min k w.texts.length ∧
    (terminalItems (w.run o (fun i => decide (i < k)))).length = min k w.texts.length ∧
    (∀ j, Action.callGenerate j ∈ w.run o (fun i => decide (i < k)) → j < k) ∧
    finishedCount (w.run o (fun i => decide (i < k))) = 1 ∧
    (w.run o (fun i => decide (i < k))).getLast? = some Action.emitFinished := by
  have hrun : w.run o (fun i => decide (i < k)) =
      workerLoop (fun _ => true) (w.processItem o w.texts.length) 0 (w.texts.take k) ++
        [Action.emitFinished] := by
    unfold BulkTTSWorker.run
    rw [workerLoop_stop_eq_take]
    simp
  refine ⟨?_, ?_, ?_, ?_, ?_⟩
  · rw [hrun]
    unfold progressCount
    rw [List.filter_append, List.length_append,
      workerLoop_always_count isProgressEvent _ 1
        (processTTSItem_one_progress w o w.texts.length) (w.texts.take k) 0]
    simp [isProgressEvent, List.length_take]
  · rw [hrun]
    unfold terminalItems
    rw [List.filterMap_append,
      workerLoop_always_filterMap terminalItemOf _ (fun _ x => [x])
        (processTTSItem_terminal w o w.texts.length) (w.texts.take k) 0,
      enumFrom_flatMap_pure]
    simp [terminalItemOf, List.length_take]
  · intro j hj
    rw [hrun] at hj
    rcases List.mem_append.mp hj with h1 | h2
    · obtain ⟨j', x, _, hlt, _, hmem⟩ :=
        mem_workerLoop_always (w.processItem o w.texts.length) (w.texts.take k) 0 _ h1
      have hj' := callGenerate_mem_processTTSItem w o w.texts.length j' x j hmem
      have hlen : (w.texts.take k).length = min k w.texts.length := List.length_take k w.texts
      omega
    · simp at h2
  · rw [hrun]
    unfold finishedCount
    rw [List.filter_append, List.length_append,
      workerLoop_always_count isFinishedEvent _ 0
        (processTTSItem_no_finished w o w.texts.length) (w.texts.take k) 0]
    simp [isFinishedEvent]
  · rw [hrun]
    exact List.getLast?_concat _

/-- C9.  A bulk worker (synthesis or conversion) constructed with an empty
work-item list emits, when run, exactly one `finished` event and nothing
else — no progress, completed, or error events. -/
theorem empty_batch_single_finished (dir base : String) (params : TTSParams)
    (tv : Option String) (o o2 : GenOracle) (running running2 : Nat → Bool) :
    BulkTTSWorker.run ⟨[], dir, base, params⟩ o running = [Action.emitFinished] ∧
    BulkVCWorker.run ⟨[], dir, tv⟩ o2 running2 = [Action.emitFinished] := by
  constructor
  · unfold BulkTTSWorker.run
    simp [workerLoop]
  · unfold BulkVCWorker.run
    simp [workerLoop]

/-- C4.  In a batch synthesis run, every file saved for the item at
0-based index `i` is saved in the output directory under the base
filename alone (`f.wav`) when the batch size is 1, and under
`f_{i+1:03d}.wav` — the 1-based index zero-padded to three digits —
otherwise. -/
theorem tts_output_filenames (w : BulkTTSWorker) (o : GenOracle) (i : Nat) (p : String)
    (h : (i, p) ∈ savePathsIdx (w.run o (fun _ => true))) :
    i < w.texts.length ∧
    p = osPathJoin w.output_dir
        (if w.texts.length = 1 then w.base_filename ++ ".wav"
         else w.base_filename ++ "_" ++ pad3 (i + 1) ++ ".wav") := by
  unfold savePathsIdx at h
  rw [List.mem_filterMap] at h
  obtain ⟨a, ha, hfa⟩ := h
  rw [saveCallOf_eq_some hfa] at ha
  unfold BulkTTSWorker.run at ha
  rcases List.mem_append.mp ha with h1 | h2
  · obtain ⟨j, x, _, hlt, _, hmem⟩ :=
      mem_workerLoop_always (w.processItem o w.texts.length) w.texts 0 _ h1
    obtain ⟨rfl, hp⟩ := callSave_mem_processTTSItem w o w.texts.length j x i p hmem
    refine ⟨by omega, ?_⟩
    rw [hp]
    simp [ttsFilename]
  · simp at h2

/-- C5.  In a batch voice-conversion run, every file saved for the item at
0-based index `i` is saved in the output directory as
`{stem of that item's input path}_converted.wav`, independent of the
item's position and of the batch size. -/
theorem vc_output_filenames (w : BulkVCWorker) (o : GenOracle) (i : Nat) (p : String)
    (h : (i, p) ∈ savePathsIdx (w.run o (fun _ => true))) :
    i < w.input_files.length ∧
    p = osPathJoin w.output_dir (pathStem (w.input_files.getD i "") ++ "_converted.wav") := by
  unfold savePathsIdx at h
  rw [List.mem_filterMap] at h
  obtain ⟨a, ha, hfa⟩ := h
  rw [saveCallOf_eq_some hfa] at ha
  unfold BulkVCWorker.run at ha
  rcases List.mem_append.mp ha with h1 | h2
  · obtain ⟨j, x, _, hlt, hget, hmem⟩ :=
      mem_workerLoop_always (w.processItem o w.input_files.length) w.input_files 0 _ h1
    obtain ⟨rfl, hp⟩ := callSave_mem_processVCItem w o w.input_files.length j x i p hmem
    have hx : w.input_files.getD i "" = x := by
      rw [List.getD_eq_getElem?_getD, ← List.get?_eq_getElem?]
      simp only [Nat.sub_zero] at hget
      rw [hget]
      rfl
    refine ⟨by omega, ?_⟩
    rw [hp, hx]
    rfl
  · simp at h2

/-- C10.  The batch conversion output path depends only on the output
directory and the input path's stem: two work items of the same run whose
input paths share a stem are saved to the identical output path, so the
later item's saved file replaces the earlier item's. -/
theorem vc_output_path_stem_collision (dir : String) (tv : Option String)
    (p q : String) (h : pathStem p = pathStem q) :
    vcOutputPath dir p = vcOutputPath dir q ∧
    savePathsIdx (BulkVCWorker.run ⟨[p, q], dir, tv⟩ oAllOk (fun _ => true)) =
      [(0, vcOutputPath dir p), (1, vcOutputPath dir p)] := by
  have h1 : vcOutputPath dir p = vcOutputPath dir q := by
    unfold vcOutputPath
    rw [h]
  refine ⟨h1, ?_⟩
  have hL : savePathsIdx (BulkVCWorker.run ⟨[p, q], dir, tv⟩ oAllOk (fun _ => true)) =
      [(0, vcOutputPath dir p), (1, vcOutputPath dir q)] := by
    simp [BulkVCWorker.run, workerLoop, BulkVCWorker.processItem, savePathsIdx,
      saveCallOf, oAllOk]
  rw [hL, h1]

/-- C6.  Every run of a single-item worker (TTS or VC) emits exactly one
terminal event, and that event is the last of the run: a `finished` event
carrying the fixed temporary output path when seeding, generation, and
saving all succeed, or a single `error` event carrying the exception's
message when the model call or the save raises. -/
theorem single_worker_terminal_event (tw : TTSWorker) (vw : VCWorker)
    (ot ov : SingleOracle) :
    sTerminalCount (tw.run ot) = 1 ∧
    (∃ a, (tw.run ot).getLast? = some a ∧ sIsTerminal a = true) ∧
    (ot.generate = Except.ok () → ot.save = Except.ok () →
      (tw.run ot).getLast? = some (SAction.finishedEv "temp_tts_output.wav")) ∧
    (∀ e, ot.generate = Except.error e →
      (tw.run ot).getLast? = some (SAction.errorEv e)) ∧
    (∀ e, ot.generate = Except.ok () → ot.save = Except.error e →
      (tw.run ot).getLast? = some (SAction.errorEv e)) ∧
    sTerminalCount (vw.run ov) = 1 ∧
    (∃ a, (vw.run ov).getLast? = some a ∧ sIsTerminal a = true) ∧
    (ov.generate = Except.ok () → ov.save = Except.ok () →
      (vw.run ov).getLast? = some (SAction.finishedEv "temp_vc_output.wav")) ∧
    (∀ e, ov.generate = Except.error e →
      (vw.run ov).getLast? = some (SAction.errorEv e)) ∧
    (∀ e, ov.generate = Except.ok () → ov.save = Except.error e →
      (vw.run ov).getLast? = some (SAction.errorEv e)) := by
  unfold TTSWorker.run VCWorker.run sTerminalCount
  rcases hg : ot.generate with e | u <;> rcases hs : ot.save with e2 | u2 <;>
    rcases hg' : ov.generate with f | v <;> rcases hs' : ov.save with f2 | v2 <;>
    by_cases hz : tw.seed ≠ 0 <;>
    simp [hz, TTSWorker.set_seed, sIsTerminal, List.filter_append, hg, hs, hg', hs']

/-- C7 (code evaluated at the failing input).  A recording session with a
single `start_recording` keeps exactly one recorder-opened stream open and
`stop_recording` closes it; but calling `start_recording` again while a
recording is active, although it does reset the frame buffer, leaves two
streams open, and the matching `stop_recording` closes only the most
recently opened one — the first stream is leaked, never stopped or
closed. -/
theorem audio_recorder_double_start_leak :
    AudioRecorder.init.start_recording.openStreams = [0] ∧
    (AudioRecorder.init.start_recording.stop_recording).1.openStreams = [] ∧
    AudioRecorder.init.start_recording.start_recording.frames = [] ∧
    AudioRecorder.init.start_recording.start_recording.openStreams = [0, 1] ∧
    (AudioRecorder.init.start_recording.start_recording.stop_recording).1.openStreams
      = [0] := by
  refine ⟨rfl, rfl, rfl, rfl, rfl⟩

/-- C8.  `stop_recording` never raises: called on a fresh recorder on
which no recording was ever started, it returns `None`; and for a session
`start_recording` / incoming audio blocks / `stop_recording` (with an
empty queue at start), it returns `None` when no block arrived and the
concatenation of the blocks in arrival order otherwise. -/
theorem stop_recording_result (r : AudioRecorder) (incoming : List (List Int))
    (hq : r.q = []) :
    ((incoming.foldl AudioRecorder.audio_callback r.start_recording).stop_recording).2 =
      (if incoming.isEmpty then none else some incoming.flatten) ∧
    (AudioRecorder.init.stop_recording).2 = none := by
  have hstep : ∀ (inc : List (List Int)) (s : AudioRecorder), s.recording = true →
      inc.foldl AudioRecorder.audio_callback s = { s with q := s.q ++ inc } := by
    intro inc
    induction inc with
    | nil => intro s hrec; simp
    | cons f rest ih =>
      intro s hrec
      simp only [List.foldl_cons]
      rw [show AudioRecorder.audio_callback s f = { s with q := s.q ++ [f] } by
            simp [AudioRecorder.audio_callback, hrec]]
      rw [ih _ (by simp [hrec])]
      simp
  constructor
  · rw [hstep incoming r.start_recording (by simp [AudioRecorder.start_recording])]
    simp [AudioRecorder.start_recording, AudioRecorder.stop_recording, hq, apply_ite]
  · rfl

/-! ### Concrete instances used by the witnesses -/

/-- A concrete parameter snapshot with non-zero base seed 7. -/
def paramsW : TTSParams :=
  { exaggeration := 1 / 2, cfg_weight := 1 / 2, temperature := 4 / 5,
    seed := 7, ref_audio := none }

/-- A concrete two-item bulk synthesis worker. -/
def ttsW : BulkTTSWorker :=
  { texts := ["Hello", "World"], output_dir := "out", base_filename := "base",
    params := paramsW }

/-- A concrete two-item bulk conversion worker. -/
def vcW : BulkVCWorker :=
  { input_files := ["dir/a.wav", "dir/b.wav"], output_dir := "out",
    target_voice_path := none }

/-- A concrete single-item TTS worker (seed 0, the "random" sentinel). -/
def singleTtsW : TTSWorker :=
  { text := "Hello", audio_prompt_path := none, exaggeration := 1 / 2,
    temperature := 4 / 5, seed := 0, cfg_weight := 1 / 2 }

/-- A concrete single-item VC worker. -/
def singleVcW : VCWorker := { audio_path := "in.wav", target_voice_path := none }

/-! ### Witnesses -/

/-- Witness for C1: a concrete two-item batch with base seed 7 makes the
five seeding calls with value `7 + i` per item, contiguously before the
model call of item 1. -/
theorem tts_seed_derivation_witness :
    seedCalls (ttsW.run oAllOk (fun _ => true)) =
      (List.range ttsW.texts.length).flatMap
        (fun i => seedTargets.map (fun t => (t, ttsW.params.seed + i))) ∧
    ∃ pre post,
      ttsW.run oAllOk (fun _ => true) =
        pre ++ (set_seed (ttsW.params.seed + 1) ++ (Action.callGenerate 1 :: post)) :=
  ⟨((tts_seed_derivation ttsW oAllOk).2 (by decide)).1,
   ((tts_seed_derivation ttsW oAllOk).2 (by decide)).2 1 (by decide)⟩

/-- Witness for C3: a two-item batch stopped after one item still invoked
the model for item 0, and every invoked item index is below 1. -/
theorem bulk_stop_truncation_witness :
    Action.callGenerate 0 ∈ ttsW.run oAllOk (fun i => decide (i < 1)) ∧ 0 < 1 :=
  ⟨by decide, (bulk_stop_truncation ttsW oAllOk 1).2.2.1 0 (by decide)⟩

/-- Witness for C4: in the concrete two-item batch, item 0 is saved as
`out/base_001.wav`. -/
theorem tts_output_filenames_witness :
    0 < ttsW.texts.length ∧
    "out/base_001.wav" = osPathJoin ttsW.output_dir
        (if ttsW.texts.length = 1 then ttsW.base_filename ++ ".wav"
         else ttsW.base_filename ++ "_" ++ pad3 (0 + 1) ++ ".wav") :=
  tts_output_filenames ttsW oAllOk 0 "out/base_001.wav" (by decide)

/-- Witness for C5: in the concrete conversion batch, input `dir/a.wav`
(stem `a`) is saved as `out/a_converted.wav`. -/
theorem vc_output_filenames_witness :
    0 < vcW.input_files.length ∧
    "out/a_converted.wav" =
      osPathJoin vcW.output_dir (pathStem (vcW.input_files.getD 0 "") ++ "_converted.wav") :=
  vc_output_filenames vcW oAllOk 0 "out/a_converted.wav" (by decide)

/-- Witness for C6: with both external calls succeeding, each single
worker ends with the `finished` event carrying its fixed temporary
path. -/
theorem single_worker_terminal_event_witness :
    (singleTtsW.run oOkS).getLast? = some (SAction.finishedEv "temp_tts_output.wav") ∧
    (singleVcW.run oOkS).getLast? = some (SAction.finishedEv "temp_vc_output.wav") :=
  ⟨(single_worker_terminal_event singleTtsW singleVcW oOkS oOkS).2.2.1 rfl rfl,
   (single_worker_terminal_event singleTtsW singleVcW oOkS oOkS).2.2.2.2.2.2.2.1 rfl rfl⟩

/-- Witness for C8: a session capturing two blocks returns their
concatenation. -/
theorem stop_recording_result_witness :
    ((([[1, 2], [3]] : List (List Int)).foldl AudioRecorder.audio_callback
        AudioRecorder.init.start_recording).stop_recording).2 =
      (if ([[1, 2], [3]] : List (List Int)).isEmpty then none
       else some ([[1, 2], [3]] : List (List Int)).flatten) :=
  (stop_recording_result AudioRecorder.init [[1, 2], [3]] rfl).1

/-- Witness for C10: `a/name.wav` and `b/name.mp3` share the stem `name`,
so both items of a two-item conversion run are saved to the same output
path. -/
theorem vc_output_path_stem_collision_witness :
    vcOutputPath "out" "a/name.wav" = vcOutputPath "out" "b/name.mp3" ∧
    savePathsIdx (BulkVCWorker.run ⟨["a/name.wav", "b/name.mp3"], "out", none⟩ oAllOk
        (fun _ => true)) =
      [(0, vcOutputPath "out" "a/name.wav"), (1, vcOutputPath "out" "a/name.wav")] :=
  vc_output_path_stem_collision "out" none "a/name.wav" "b/name.mp3" (by decide)

end Chatterbox
